import Mathlib

/-!
Shallow embedding of the drone gateway (src/drone.py): per-sensor rolling
statistics (`Stats`), the listener's per-line handling, the sender with its
charging/offline queue, the queue flush routine, and the battery power
controller.  Python floats are modelled as rationals (ℚ); network and clock
effects are passed in explicitly as environment parameters.
-/

set_option maxHeartbeats 1000000
set_option linter.unnecessarySeqFocus false

namespace DroneGateway

/-- Threshold `TEMP_MIN` from drone.py line 24. -/
def TEMP_MIN : ℚ := 18

/-- Threshold `TEMP_MAX` from drone.py line 24. -/
def TEMP_MAX : ℚ := 27

/-- Threshold `HUM_MIN` from drone.py line 25. -/
def HUM_MIN : ℚ := 30

/-- Threshold `HUM_MAX` from drone.py line 25. -/
def HUM_MAX : ℚ := 60

/-- The last `n` elements of a list (everything after dropping the first
`length - n`). -/
def lastN (n : ℕ) (xs : List ℚ) : List ℚ := xs.drop (xs.length - n)

/-- Model of `collections.deque(maxlen=cap).append`: append on the right and, when the
capacity is exceeded, evict from the left until the length is `cap`. -/
def dequeAppend (cap : ℕ) (w : List ℚ) (x : ℚ) : List ℚ :=
  let w' := w ++ [x]
  if cap < w'.length then w'.drop (w'.length - cap) else w'

/-- Python string slice `s[-8:]`: the last eight characters (the whole string
when it is shorter). -/
def pyLast8 (s : String) : String := s.drop (s.length - 8)

/-- The anomaly test of `Stats.add` (drone.py line 63):
`bad = not (TEMP_MIN <= tt <= TEMP_MAX and HUM_MIN <= hh <= HUM_MAX)`. -/
def isAnomaly (tt hh : ℚ) : Bool :=
  !(decide (TEMP_MIN ≤ tt ∧ tt ≤ TEMP_MAX ∧ HUM_MIN ≤ hh ∧ hh ≤ HUM_MAX))

/-- The per-sensor rolling statistics object (`class Stats`, drone.py
lines 40–66).  The two deques are lists with the oldest element first. -/
structure Stats where
  t : List ℚ
  h : List ℚ
  avg_t : ℚ
  avg_h : ℚ
  last : String
  anom : ℕ
deriving DecidableEq

/-- Constructor `Stats.__init__`: empty windows, zero averages, `last = "—"`, zero
anomalies. -/
def Stats.init : Stats := ⟨[], [], 0, 0, "—", 0⟩

/-- Method `Stats.add(tt, hh, ts)` (drone.py lines 52–66): append to both deques,
recompute both averages from the full windows, record the timestamp suffix,
and count the reading as an anomaly when it is out of bounds.  Returns the
updated object together with the returned `bad` flag. -/
def Stats.add (s : Stats) (tt hh : ℚ) (ts : String) : Stats × Bool :=
  let t' := dequeAppend 10 s.t tt
  let h' := dequeAppend 10 s.h hh
  let bad := isAnomaly tt hh
  ({ t := t'
     h := h'
     avg_t := t'.sum / (t'.length : ℚ)
     avg_h := h'.sum / (h'.length : ℚ)
     last := pyLast8 ts
     anom := s.anom + (if bad then 1 else 0) }, bad)

/-- One reading for a single sensor: temperature, humidity, timestamp. -/
abbrev SReading := ℚ × ℚ × String

/-- One invocation of `send_avg` as made by the listener: the averages and the
anomaly count passed along (drone.py line 164). -/
abbrev Emission := ℚ × ℚ × ℕ

/-- The listener's per-reading step for one sensor (drone.py lines 159–164):
run `Stats.add`, then, when the window length equals 10, invoke `send_avg`
with the current averages and anomaly count. -/
def handleReading (s : Stats) (r : SReading) : Stats × List Emission :=
  let res := s.add r.1 r.2.1 r.2.2
  (res.1, if res.1.t.length = 10 then [(res.1.avg_t, res.1.avg_h, res.1.anom)] else [])

/-- Deliver a sequence of readings for one sensor through the listener path,
collecting every `send_avg` invocation in order. -/
def runReadings (s : Stats) : List SReading → Stats × List Emission
  | [] => (s, [])
  | r :: rs =>
    let h1 := handleReading s r
    let h2 := runReadings h1.1 rs
    (h2.1, h1.2 ++ h2.2)

/-! ### Specification-side functions for the aggregation path -/

/-- The temperatures of a reading sequence, in order. -/
def temps (rs : List SReading) : List ℚ := rs.map fun r => r.1

/-- The humidities of a reading sequence, in order. -/
def hums (rs : List SReading) : List ℚ := rs.map fun r => r.2.1

/-- Arithmetic mean of a list of rationals (`0` for the empty list, since in
ℚ division by zero yields zero, matching the `0.0` initial averages). -/
def mean (xs : List ℚ) : ℚ := xs.sum / (xs.length : ℚ)

/-- How many readings of the sequence are anomalous. -/
def anomCount (rs : List SReading) : ℕ :=
  (rs.filter fun r => isAnomaly r.1 r.2.1).length

/-- The `last` field after a reading sequence: the suffix of the latest
timestamp, or the initial dash when no reading arrived. -/
def lastTs (rs : List SReading) : String :=
  match rs.getLast? with
  | none => "—"
  | some r => pyLast8 r.2.2

/-- The statistics object a reading sequence should produce: windows hold the
last 10 values, averages are the means of the windows, the anomaly counter
counts every anomalous reading ever seen. -/
def specStats (rs : List SReading) : Stats :=
  { t := lastN 10 (temps rs)
    h := lastN 10 (hums rs)
    avg_t := mean (lastN 10 (temps rs))
    avg_h := mean (lastN 10 (hums rs))
    last := lastTs rs
    anom := anomCount rs }

/-- The emission due after a given prefix of readings: means of the most
recent 10 temperatures and humidities, and the anomaly count so far. -/
def specEmission (pre : List SReading) : Emission :=
  (mean (lastN 10 (temps pre)), mean (lastN 10 (hums pre)), anomCount pre)

/-- The full emission sequence for a reading sequence: one emission per
reading index `i` with `9 ≤ i` (0-based), i.e. on the 10th reading and on
every reading after it. -/
def specEmissions (rs : List SReading) : List Emission :=
  (List.range rs.length).filterMap fun i =>
    if 9 ≤ i then some (specEmission (rs.take (i + 1))) else none

/-! ### Window lemmas -/

theorem lastN_length (n : ℕ) (xs : List ℚ) :
    (lastN n xs).length = min n xs.length := by
  simp [lastN]
  omega

theorem lastN_append_lastN (n : ℕ) (xs ys : List ℚ) :
    lastN n (lastN n xs ++ ys) = lastN n (xs ++ ys) := by
  simp only [lastN, List.drop_append_eq_append_drop, List.drop_drop,
    List.length_append, List.length_drop]
  congr 1
  · congr 1
    omega
  · congr 1
    omega

theorem dequeAppend_eq_lastN (cap : ℕ) (w : List ℚ) (x : ℚ) :
    dequeAppend cap w x = lastN cap (w ++ [x]) := by
  simp only [dequeAppend, lastN]
  split
  · rfl
  · rename_i hle
    have : (w ++ [x]).length - cap = 0 := by omega
    rw [this, List.drop_zero]

theorem runReadings_append (s : Stats) (rs : List SReading) (r : SReading) :
    runReadings s (rs ++ [r]) =
      ((handleReading (runReadings s rs).1 r).1,
       (runReadings s rs).2 ++ (handleReading (runReadings s rs).1 r).2) := by
  induction rs generalizing s with
  | nil => simp [runReadings]
  | cons a as ih => simp [runReadings, ih, List.append_assoc]

theorem specStats_nil : specStats [] = Stats.init := by
  simp [specStats, Stats.init, lastN, temps, hums, mean, anomCount, lastTs]

theorem handleReading_specStats (rs : List SReading) (r : SReading) :
    handleReading (specStats rs) r =
      (specStats (rs ++ [r]),
       if 9 ≤ rs.length then [specEmission (rs ++ [r])] else []) := by
  have ht : dequeAppend 10 (lastN 10 (temps rs)) r.1 = lastN 10 (temps (rs ++ [r])) := by
    rw [dequeAppend_eq_lastN, lastN_append_lastN]
    simp [temps]
  have hh : dequeAppend 10 (lastN 10 (hums rs)) r.2.1 = lastN 10 (hums (rs ++ [r])) := by
    rw [dequeAppend_eq_lastN, lastN_append_lastN]
    simp [hums]
  have hlen : (lastN 10 (temps (rs ++ [r]))).length = min 10 (rs.length + 1) := by
    rw [lastN_length]
    simp [temps]
  have hcond : ((lastN 10 (temps (rs ++ [r]))).length = 10) ↔ (9 ≤ rs.length) := by
    rw [hlen]
    omega
  have hanom : anomCount (rs ++ [r]) =
      anomCount rs + (if isAnomaly r.1 r.2.1 then 1 else 0) := by
    simp only [anomCount, List.filter_append, List.length_append]
    congr 1
    by_cases hb : isAnomaly r.1 r.2.1 <;> simp [List.filter, hb]
  have hlast : lastTs (rs ++ [r]) = pyLast8 r.2.2 := by
    simp [lastTs]
  simp only [handleReading, Stats.add, specStats, ht, hh, hanom, hlast, hcond]
  simp [mean, specEmission, hanom]

theorem specEmissions_append (rs : List SReading) (r : SReading) :
    specEmissions (rs ++ [r]) =
      specEmissions rs ++ (if 9 ≤ rs.length then [specEmission (rs ++ [r])] else []) := by
  have htake : (rs ++ [r]).take (rs.length + 1) = rs ++ [r] := by
    apply List.take_of_length_le
    simp
  simp only [specEmissions, List.length_append, List.length_singleton]
  rw [List.range_succ, List.filterMap_append]
  congr 1
  · apply List.filterMap_congr
    intro i hi
    have hi' : i < rs.length := List.mem_range.mp hi
    have : (rs ++ [r]).take (i + 1) = rs.take (i + 1) :=
      List.take_append_of_le_length (by omega)
    rw [this]
  · by_cases hc : 9 ≤ rs.length
    · simp [hc, htake]
    · simp [hc]

theorem runReadings_eq_spec (rs : List SReading) :
    runReadings Stats.init rs = (specStats rs, specEmissions rs) := by
  induction rs using List.reverseRecOn with
  | nil => simp [runReadings, specStats_nil, specEmissions]
  | append_singleton rs r ih =>
    simp [runReadings_append, ih, handleReading_specStats, specEmissions_append]

theorem specEmissions_length (rs : List SReading) :
    (specEmissions rs).length = rs.length - 9 := by
  induction rs using List.reverseRecOn with
  | nil => simp [specEmissions]
  | append_singleton rs r ih =>
    rw [specEmissions_append]
    simp only [List.length_append, ih, List.length_singleton]
    by_cases hc : 9 ≤ rs.length <;> simp [hc] <;> omega

theorem anom_mono (s : Stats) (rs : List SReading) :
    s.anom ≤ (runReadings s rs).1.anom := by
  induction rs generalizing s with
  | nil => simp [runReadings]
  | cons r rs ih =>
    simp only [runReadings]
    refine Nat.le_trans ?_ (ih _)
    simp only [handleReading, Stats.add]
    split <;> omega

theorem dequeAppend_getLast? (cap : ℕ) (w : List ℚ) (x : ℚ) (hcap : 1 ≤ cap) :
    (dequeAppend cap w x).getLast? = some x := by
  rw [dequeAppend_eq_lastN]
  unfold lastN
  have hk : (w ++ [x]).length - cap ≤ w.length := by
    simp only [List.length_append, List.length_singleton]
    omega
  rw [List.drop_append_of_le_length hk, List.getLast?_concat]

theorem dequeAppend_length (cap : ℕ) (w : List ℚ) (x : ℚ) :
    (dequeAppend cap w x).length = min cap (w.length + 1) := by
  rw [dequeAppend_eq_lastN, lastN_length]
  simp

/-- C1 (counterexample): after 11 readings for one sensor the listener has
invoked `send_avg` twice — once on the 10th reading and again on the 11th —
while the claim predicts exactly one emission for 11 readings (only on the
10th).  The window length stays at 10 forever, so the emission condition
`len(st.t) == 10` fires on every reading from the 10th onward. -/
theorem decade_emission_cex :
    (runReadings Stats.init (List.replicate 11 ((20 : ℚ), (40 : ℚ), "ts"))).2.length = 2 ∧
    ¬ (runReadings Stats.init (List.replicate 11 ((20 : ℚ), (40 : ℚ), "ts"))).2.length = 1 := by
  constructor
  · decide
  · decide

/-- C1 (amended): for every reading sequence of one sensor, the listener path
invokes `send_avg` exactly on the 10th reading and on every subsequent
reading (`rs.length - 9` emissions in total), and at each emission the
emitted `avg_temp`/`avg_hum` are the arithmetic means of the most recent 10
temperature and humidity values, with the anomaly count so far. -/
theorem emission_on_every_full_window (rs : List SReading) :
    runReadings Stats.init rs = (specStats rs, specEmissions rs) ∧
    (runReadings Stats.init rs).2.length = rs.length - 9 := by
  refine ⟨runReadings_eq_spec rs, ?_⟩
  rw [runReadings_eq_spec rs]
  exact specEmissions_length rs

/-- C2: a reading is counted anomalous exactly when the temperature is
outside [18, 27] or the humidity is outside [30, 60]; the anomalous reading
still enters both windows (it is the youngest entry and the averages are the
sums over the full windows that contain it); the counter grows by exactly 1
on an anomalous reading and by 0 otherwise, and over any reading sequence it
never decreases. -/
theorem anomaly_rule (s : Stats) (tt hu : ℚ) (ts : String) (rs : List SReading) :
    ((s.add tt hu ts).2 = true ↔
      (tt < TEMP_MIN ∨ TEMP_MAX < tt ∨ hu < HUM_MIN ∨ HUM_MAX < hu))
    ∧ (s.add tt hu ts).1.anom = s.anom + (if (s.add tt hu ts).2 = true then 1 else 0)
    ∧ (s.add tt hu ts).1.t.getLast? = some tt
    ∧ (s.add tt hu ts).1.h.getLast? = some hu
    ∧ (s.add tt hu ts).1.avg_t = (s.add tt hu ts).1.t.sum / ((s.add tt hu ts).1.t.length : ℚ)
    ∧ (s.add tt hu ts).1.avg_h = (s.add tt hu ts).1.h.sum / ((s.add tt hu ts).1.h.length : ℚ)
    ∧ s.anom ≤ (runReadings s rs).1.anom := by
  refine ⟨?_, rfl, ?_, ?_, rfl, rfl, anom_mono s rs⟩
  · simp only [Stats.add, isAnomaly, Bool.not_eq_true', decide_eq_false_iff_not,
      not_and_or, not_le]
  · exact dequeAppend_getLast? 10 s.t tt (by omega)
  · exact dequeAppend_getLast? 10 s.h hu (by omega)

/-- C3: both windows always keep at most 10 entries (both for a single
`add` step from any state and along any reading sequence from the initial
state); when an insert happens on a full window exactly the oldest entry is
evicted, otherwise the value is appended with nothing evicted; and after
every insert both averages equal the sum of the full current window divided
by its length. -/
theorem window_invariant (s : Stats) (tt hu : ℚ) (ts : String) (rs : List SReading) :
    (s.add tt hu ts).1.t.length ≤ 10
    ∧ (s.add tt hu ts).1.h.length ≤ 10
    ∧ (s.t.length = 10 → (s.add tt hu ts).1.t = s.t.tail ++ [tt])
    ∧ (s.t.length < 10 → (s.add tt hu ts).1.t = s.t ++ [tt])
    ∧ (s.h.length = 10 → (s.add tt hu ts).1.h = s.h.tail ++ [hu])
    ∧ (s.h.length < 10 → (s.add tt hu ts).1.h = s.h ++ [hu])
    ∧ (s.add tt hu ts).1.avg_t = (s.add tt hu ts).1.t.sum / ((s.add tt hu ts).1.t.length : ℚ)
    ∧ (s.add tt hu ts).1.avg_h = (s.add tt hu ts).1.h.sum / ((s.add tt hu ts).1.h.length : ℚ)
    ∧ (runReadings Stats.init rs).1.t.length ≤ 10
    ∧ (runReadings Stats.init rs).1.h.length ≤ 10 := by
  have hfull : ∀ (w : List ℚ) (x : ℚ), w.length = 10 → dequeAppend 10 w x = w.tail ++ [x] := by
    intro w x hw
    simp only [dequeAppend, List.length_append, List.length_singleton, hw]
    rw [if_pos (by omega)]
    rw [List.drop_append_of_le_length (by omega)]
    simp [List.drop_one]
  have hroom : ∀ (w : List ℚ) (x : ℚ), w.length < 10 → dequeAppend 10 w x = w ++ [x] := by
    intro w x hw
    simp only [dequeAppend, List.length_append, List.length_singleton]
    rw [if_neg (by omega)]
  have hinit := runReadings_eq_spec rs
  refine ⟨?_, ?_, hfull s.t tt, hroom s.t tt, hfull s.h hu, hroom s.h hu, rfl, rfl, ?_, ?_⟩
  · show (dequeAppend 10 s.t tt).length ≤ 10
    rw [dequeAppend_length]
    omega
  · show (dequeAppend 10 s.h hu).length ≤ 10
    rw [dequeAppend_length]
    omega
  · rw [hinit]
    show (lastN 10 (temps rs)).length ≤ 10
    rw [lastN_length]
    omega
  · rw [hinit]
    show (lastN 10 (hums rs)).length ≤ 10
    rw [lastN_length]
    omega

/-- Witness for C3 at a full window: the oldest entry is evicted. -/
theorem window_invariant_witness :
    (([1, 2, 3, 4, 5, 6, 7, 8, 9, 10] : List ℚ).length = 10) ∧
    (Stats.add ⟨[1, 2, 3, 4, 5, 6, 7, 8, 9, 10], [1, 2, 3, 4, 5, 6, 7, 8, 9, 10],
        0, 0, "x", 0⟩ 99 99 "t").1.t =
      ([1, 2, 3, 4, 5, 6, 7, 8, 9, 10] : List ℚ).tail ++ [99] :=
  ⟨by decide,
   (window_invariant ⟨[1, 2, 3, 4, 5, 6, 7, 8, 9, 10], [1, 2, 3, 4, 5, 6, 7, 8, 9, 10],
        0, 0, "x", 0⟩ 99 99 "t" []).2.2.1 (by decide)⟩

/-! ### Sender, outbound queue and flush routine (drone.py lines 196–243) -/

/-- The log lines the gateway pushes onto `log_queue`, abstracted to events. -/
inductive LogEvent
  | centralOffline
  | centralLost
  | queuedSent
  | stillOffline
  | batteryLow
  | batteryFull
deriving DecidableEq

/-- Python `round(x, 2)` on the rational model: round half to even at two
decimal places. -/
def round2 (q : ℚ) : ℚ :=
  let z := ⌊q * 100⌋
  let r := q * 100 - z
  let n := if r < 1 / 2 then z else if 1 / 2 < r then z + 1 else if z % 2 = 0 then z else z + 1
  (n : ℚ) / 100

/-- A `SummaryPacket` as built in `make_sender.send` (drone.py line 205):
averages rounded to two decimals, plus the anomaly count and the send-time
timestamp. -/
structure Packet where
  sensor_id : String
  avg_temp : ℚ
  avg_hum : ℚ
  anomaly_count : ℕ
  timestamp : String
deriving DecidableEq

/-- Construct the packet of one `send` call. -/
def mkPacket (sensor_id : String) (avg_temp avg_hum : ℚ) (anomaly_count : ℕ)
    (now : String) : Packet :=
  ⟨sensor_id, round2 avg_temp, round2 avg_hum, anomaly_count, now⟩

/-- The sender's closure state: the persistent connection handle (`sock`,
modelled as an optional connection id), a counter issuing fresh connection
ids, the number of `create_connection` attempts made so far, the outbound
`packet_queue`, the packets actually written to the collector (paired with
the connection id used), and the produced log events. -/
structure SenderState where
  sock : Option ℕ
  nextConn : ℕ
  connAttempts : ℕ
  queue : List Packet
  sent : List (ℕ × Packet)
  log : List LogEvent
deriving DecidableEq

/-- The environment of one `send` call: whether `charging_event` is set,
whether `socket.create_connection` would succeed, whether `sendall` would
succeed, and the value of `utc_now()`. -/
structure SendEnv where
  charging : Bool
  connectOk : Bool
  sendOk : Bool
  now : String
deriving DecidableEq

/-- The `sock.sendall` part of `send` (drone.py lines 220–226): on success
the packet is transmitted on connection `c` and the handle is kept; on
failure the failure is logged, the handle is reset to `None`, and the packet
is appended to the queue. -/
def sendOnSock (env : SendEnv) (c : ℕ) (packet : Packet) (st : SenderState) : SenderState :=
  if env.sendOk then { st with sent := st.sent ++ [(c, packet)] }
  else { st with log := st.log ++ [LogEvent.centralLost]
                 sock := none
                 queue := st.queue ++ [packet] }

/-- Function `make_sender.send` (drone.py lines 204–227): build the packet; while
charging just append it to the queue; otherwise open a connection if none is
held (on failure log, queue the packet and return) and then transmit on the
held connection. -/
def send (env : SendEnv) (sensor_id : String) (avg_temp avg_hum : ℚ)
    (anomaly_count : ℕ) (st : SenderState) : SenderState :=
  let packet := mkPacket sensor_id avg_temp avg_hum anomaly_count env.now
  if env.charging then { st with queue := st.queue ++ [packet] }
  else
    match st.sock with
    | none =>
      if env.connectOk then
        sendOnSock env st.nextConn packet
          { st with sock := some st.nextConn
                    nextConn := st.nextConn + 1
                    connAttempts := st.connAttempts + 1 }
      else
        { st with connAttempts := st.connAttempts + 1
                  log := st.log ++ [LogEvent.centralOffline]
                  queue := st.queue ++ [packet] }
    | some c => sendOnSock env c packet st

/-- One `send_avg` invocation together with its environment. -/
structure SendCall where
  env : SendEnv
  sensor_id : String
  avg_temp : ℚ
  avg_hum : ℚ
  anomaly_count : ℕ
deriving DecidableEq

/-- The packet a call constructs. -/
def callPacket (c : SendCall) : Packet :=
  mkPacket c.sensor_id c.avg_temp c.avg_hum c.anomaly_count c.env.now

/-- Run a sequence of `send` calls in order. -/
def sendMany (st : SenderState) : List SendCall → SenderState
  | [] => st
  | c :: cs => sendMany (send c.env c.sensor_id c.avg_temp c.avg_hum c.anomaly_count st) cs

/-- The observable result of `flush_queue` (drone.py lines 230–243): the
final `packet_queue`, the packets transmitted (in order), the number of
loop iterations (connection attempts), and the log events. -/
structure FlushResult where
  queue : List Packet
  transmitted : List Packet
  attempts : ℕ
  log : List LogEvent
deriving DecidableEq

/-- Function `flush_queue`: while the queue is nonempty, pop the oldest packet and
try to transmit it over a fresh connection; `ok i` tells whether the `i`-th
connection attempt succeeds.  On the first failure the packet is reinserted
at the front and the loop stops. -/
def flushQueue (ok : ℕ → Bool) : List Packet → ℕ → FlushResult
  | [], _ => ⟨[], [], 0, []⟩
  | p :: rest, i =>
    if ok i then
      let r := flushQueue ok rest (i + 1)
      ⟨r.queue, p :: r.transmitted, r.attempts + 1, LogEvent.queuedSent :: r.log⟩
    else ⟨p :: rest, [], 1, [LogEvent.stillOffline]⟩

/-! ### Battery worker (drone.py lines 248–269) -/

/-- The state of the battery worker: the battery level, the discharge flag,
and the two events it drives (`listening_event`, `charging_event`). -/
structure BatteryState where
  level : ℤ
  is_discharging : Bool
  listening : Bool
  charging : Bool
deriving DecidableEq

/-- The outcome of one battery tick: the new state, whether `flush_queue`
was invoked on this tick, and the log events. -/
structure BatteryTick where
  state : BatteryState
  flushed : Bool
  log : List LogEvent
deriving DecidableEq

/-- One iteration of the `battery` loop: step the level by ±1 according to
the direction, then check the two thresholds; on the low crossing disable
the listener and set the charging flag; on the full crossing re-enable the
listener, clear the charging flag and invoke the flush routine. -/
def batteryStep (s : BatteryState) : BatteryTick :=
  let lvl := s.level + (if s.is_discharging then -1 else 1)
  if s.is_discharging ∧ lvl ≤ 15 then
    ⟨⟨lvl, false, false, true⟩, false, [LogEvent.batteryLow]⟩
  else if ¬ (s.is_discharging = true) ∧ 100 ≤ lvl then
    ⟨⟨lvl, true, true, false⟩, true, [LogEvent.batteryFull]⟩
  else ⟨⟨lvl, s.is_discharging, s.listening, s.charging⟩, false, []⟩

theorem send_charging (env : SendEnv) (sid : String) (a_t a_h : ℚ) (n : ℕ)
    (st : SenderState) (hc : env.charging = true) :
    send env sid a_t a_h n st =
      { st with queue := st.queue ++ [mkPacket sid a_t a_h n env.now] } := by
  simp [send, hc]

theorem send_fail_enqueues (env : SendEnv) (sid : String) (a_t a_h : ℚ) (n : ℕ)
    (st : SenderState) (hc : env.charging = false) (hconn : env.connectOk = false)
    (hsend : env.sendOk = false) :
    (send env sid a_t a_h n st).queue = st.queue ++ [mkPacket sid a_t a_h n env.now] := by
  cases hs : st.sock <;> simp [send, sendOnSock, hc, hconn, hsend, hs]

theorem sendMany_charging (calls : List SendCall) :
    ∀ st : SenderState, (∀ c ∈ calls, c.env.charging = true) →
      (sendMany st calls).queue = st.queue ++ calls.map callPacket
      ∧ (sendMany st calls).sent = st.sent
      ∧ (sendMany st calls).connAttempts = st.connAttempts
      ∧ (sendMany st calls).sock = st.sock := by
  induction calls with
  | nil =>
    intro st _
    simp [sendMany]
  | cons c cs ih =>
    intro st hcs
    have hc1 : c.env.charging = true := hcs c (by simp)
    have hcs' : ∀ d ∈ cs, d.env.charging = true := fun d hd => hcs d (by simp [hd])
    simp only [sendMany,
      send_charging c.env c.sensor_id c.avg_temp c.avg_hum c.anomaly_count st hc1]
    rcases ih { st with queue :=
        st.queue ++ [mkPacket c.sensor_id c.avg_temp c.avg_hum c.anomaly_count c.env.now] }
        hcs' with ⟨h1, h2, h3, h4⟩
    refine ⟨?_, h2, h3, h4⟩
    rw [h1]
    simp [callPacket]

theorem sendMany_fail (calls : List SendCall) :
    ∀ st : SenderState,
      (∀ c ∈ calls,
        c.env.charging = false ∧ c.env.connectOk = false ∧ c.env.sendOk = false) →
      (sendMany st calls).queue = st.queue ++ calls.map callPacket := by
  induction calls with
  | nil =>
    intro st _
    simp [sendMany]
  | cons c cs ih =>
    intro st hcs
    rcases hcs c (by simp) with ⟨h1, h2, h3⟩
    have hcs' : ∀ d ∈ cs,
        d.env.charging = false ∧ d.env.connectOk = false ∧ d.env.sendOk = false :=
      fun d hd => hcs d (by simp [hd])
    simp only [sendMany]
    rw [ih _ hcs',
      send_fail_enqueues c.env c.sensor_id c.avg_temp c.avg_hum c.anomaly_count st h1 h2 h3]
    simp [callPacket]

/-- C4: a `send` made while the power state is CHARGING only appends the
constructed packet to the end of the outbound queue: the connection handle,
the connection-attempt counter, the transmissions and the log are untouched;
and a run of calls all made while charging extends the queue by exactly
their packets in arrival order, transmitting nothing and attempting no
connection. -/
theorem charging_send_enqueues (env : SendEnv) (sid : String) (a_t a_h : ℚ) (n : ℕ)
    (st : SenderState) (calls : List SendCall)
    (hc : env.charging = true) (hcs : ∀ c ∈ calls, c.env.charging = true) :
    send env sid a_t a_h n st =
      { st with queue := st.queue ++ [mkPacket sid a_t a_h n env.now] }
    ∧ (sendMany st calls).queue = st.queue ++ calls.map callPacket
    ∧ (sendMany st calls).sent = st.sent
    ∧ (sendMany st calls).connAttempts = st.connAttempts
    ∧ (sendMany st calls).sock = st.sock := by
  exact ⟨send_charging env sid a_t a_h n st hc, sendMany_charging calls st hcs⟩

/-- Witness for C4: one concrete charging-state call appends its packet. -/
theorem charging_send_enqueues_witness :
    send ⟨true, false, false, "now"⟩ ("s1") 20 40 0
        ⟨none, 0, 0, [], [], []⟩ =
      ⟨none, 0, 0, [mkPacket ("s1") 20 40 0 ("now")], [], []⟩ :=
  (charging_send_enqueues ⟨true, false, false, "now"⟩ ("s1") 20 40 0
    ⟨none, 0, 0, [], [], []⟩ [] rfl (by intro c hc; cases hc)).1

/-- C5: a `send` made while RUNNING that fails to establish the connection
or to transmit logs one failure event, leaves the connection handle reset to
`None` (so the next attempt opens fresh), appends the packet to the end of
the queue, transmits nothing, and makes at most one connection attempt (no
synchronous retry). -/
theorem running_send_failure (env : SendEnv) (sid : String) (a_t a_h : ℚ) (n : ℕ)
    (st : SenderState) (hc : env.charging = false)
    (hfail : (st.sock = none ∧ env.connectOk = false) ∨ env.sendOk = false) :
    (send env sid a_t a_h n st).queue = st.queue ++ [mkPacket sid a_t a_h n env.now]
    ∧ (send env sid a_t a_h n st).sock = none
    ∧ (send env sid a_t a_h n st).sent = st.sent
    ∧ (send env sid a_t a_h n st).connAttempts ≤ st.connAttempts + 1
    ∧ (∃ e, (e = LogEvent.centralOffline ∨ e = LogEvent.centralLost) ∧
        (send env sid a_t a_h n st).log = st.log ++ [e]) := by
  cases hs : st.sock with
  | none =>
    cases hco : env.connectOk with
    | false => simp [send, hc, hs, hco]
    | true =>
      have hso : env.sendOk = false := by
        rcases hfail with ⟨_, h⟩ | h
        · rw [hco] at h
          cases h
        · exact h
      simp [send, sendOnSock, hc, hs, hco, hso]
  | some c =>
    have hso : env.sendOk = false := by
      rcases hfail with ⟨h, _⟩ | h
      · rw [hs] at h
        cases h
      · exact h
    simp [send, sendOnSock, hc, hs, hso]

/-- Witness for C5: one concrete RUNNING-state call with a failing
connection attempt queues its packet and resets the handle. -/
theorem running_send_failure_witness :
    (send ⟨false, false, false, "now"⟩ ("s1") 20 40 0
        ⟨none, 0, 0, [], [], []⟩).queue = [mkPacket ("s1") 20 40 0 ("now")]
    ∧ (send ⟨false, false, false, "now"⟩ ("s1") 20 40 0
        ⟨none, 0, 0, [], [], []⟩).sock = none :=
  ⟨(running_send_failure ⟨false, false, false, "now"⟩ ("s1") 20 40 0
      ⟨none, 0, 0, [], [], []⟩ rfl (Or.inl ⟨rfl, rfl⟩)).1,
   (running_send_failure ⟨false, false, false, "now"⟩ ("s1") 20 40 0
      ⟨none, 0, 0, [], [], []⟩ rfl (Or.inl ⟨rfl, rfl⟩)).2.1⟩

/-- C9: consecutive RUNNING-state failures (collector unreachable) append
exactly one packet each, so the queue grows by the failed packets in send
order; and a successful RUNNING-state send leaves the queue entirely
unchanged: it transmits its own packet directly and neither transmits nor
removes any queued packet. -/
theorem failed_sends_accumulate (st st' : SenderState) (calls : List SendCall)
    (env : SendEnv) (sid : String) (a_t a_h : ℚ) (n : ℕ)
    (hfail : ∀ c ∈ calls,
      c.env.charging = false ∧ c.env.connectOk = false ∧ c.env.sendOk = false)
    (hrun : env.charging = false) (hok : env.sendOk = true)
    (hconn : st'.sock = none → env.connectOk = true) :
    (sendMany st calls).queue = st.queue ++ calls.map callPacket
    ∧ (send env sid a_t a_h n st').queue = st'.queue
    ∧ (∃ c, (send env sid a_t a_h n st').sent =
        st'.sent ++ [(c, mkPacket sid a_t a_h n env.now)]) := by
  constructor
  · exact sendMany_fail calls st hfail
  · cases hs : st'.sock with
    | none =>
      have hco := hconn hs
      constructor
      · simp [send, sendOnSock, hrun, hs, hco, hok]
      · exact ⟨st'.nextConn, by simp [send, sendOnSock, hrun, hs, hco, hok]⟩
    | some c =>
      constructor
      · simp [send, sendOnSock, hrun, hs, hok]
      · exact ⟨c, by simp [send, sendOnSock, hrun, hs, hok]⟩

/-- Witness for C9: two concrete unreachable-collector failures queue two
packets in order; a following successful send does not touch the queue. -/
theorem failed_sends_accumulate_witness :
    (sendMany ⟨none, 0, 0, [], [], []⟩
        [⟨⟨false, false, false, "t1"⟩, "a", 20, 40, 0⟩,
         ⟨⟨false, false, false, "t2"⟩, "b", 21, 41, 1⟩]).queue =
      [mkPacket ("a") 20 40 0 ("t1"), mkPacket ("b") 21 41 1 ("t2")]
    ∧ (send ⟨false, true, true, "t3"⟩ ("c") 22 42 2
        ⟨none, 0, 0, [mkPacket ("a") 20 40 0 ("t1")], [], []⟩).queue =
      [mkPacket ("a") 20 40 0 ("t1")] := by
  have h := failed_sends_accumulate ⟨none, 0, 0, [], [], []⟩
    ⟨none, 0, 0, [mkPacket ("a") 20 40 0 ("t1")], [], []⟩
    [⟨⟨false, false, false, "t1"⟩, "a", 20, 40, 0⟩,
     ⟨⟨false, false, false, "t2"⟩, "b", 21, 41, 1⟩]
    ⟨false, true, true, "t3"⟩ ("c") 22 42 2
    (by intro c hc; fin_cases hc <;> exact ⟨rfl, rfl, rfl⟩)
    rfl rfl (fun _ => rfl)
  exact ⟨h.1, h.2.1⟩

/-- C6: the flush routine transmits a prefix of the queue in order and stops
at the first failure: on exit the transmitted packets followed by the
remaining queue re-form the original queue exactly (so the remaining queue
is the untransmitted suffix, with the failed packet reinserted at its
front), and unless the queue was drained empty the attempt on the head of
the remaining queue is the one that failed. -/
theorem flush_stops_at_first_failure (ok : ℕ → Bool) (q : List Packet) (i : ℕ) :
    (flushQueue ok q i).transmitted ++ (flushQueue ok q i).queue = q
    ∧ ((flushQueue ok q i).queue = [] ∨
        ((flushQueue ok q i).queue = q.drop (flushQueue ok q i).transmitted.length
         ∧ ok (i + (flushQueue ok q i).transmitted.length) = false)) := by
  induction q generalizing i with
  | nil => simp [flushQueue]
  | cons p rest ih =>
    by_cases hk : ok i = true
    · rcases ih (i + 1) with ⟨ih1, ih2⟩
      simp only [flushQueue, if_pos hk]
      constructor
      · simp [ih1]
      · rcases ih2 with h | ⟨h1, h2⟩
        · exact Or.inl h
        · refine Or.inr ⟨?_, ?_⟩
          · simp only [List.length_cons, List.drop_succ_cons]
            exact h1
          · have : i + (1 + (flushQueue ok rest (i + 1)).transmitted.length) =
                i + 1 + (flushQueue ok rest (i + 1)).transmitted.length := by omega
            simp only [List.length_cons]
            rw [show (flushQueue ok rest (i + 1)).transmitted.length + 1 =
              1 + (flushQueue ok rest (i + 1)).transmitted.length by omega, this]
            exact h2
    · have hk' : ok i = false := by
        cases h : ok i
        · rfl
        · exact absurd h hk
      simp [flushQueue, hk', hk]

/-- C10: the flush routine terminates for every finite queue and outcome
pattern (it is a total structurally recursive function) making at most one
connection attempt per queued packet: the attempt count is bounded by the
queue length, every packet is either transmitted or still queued, and the
attempts number exactly the transmitted packets plus one failed attempt when
the routine stopped early. -/
theorem flush_attempts_bounded (ok : ℕ → Bool) (q : List Packet) (i : ℕ) :
    (flushQueue ok q i).attempts ≤ q.length
    ∧ (flushQueue ok q i).transmitted.length + (flushQueue ok q i).queue.length = q.length
    ∧ ((flushQueue ok q i).attempts = (flushQueue ok q i).transmitted.length ∨
       (flushQueue ok q i).attempts = (flushQueue ok q i).transmitted.length + 1) := by
  induction q generalizing i with
  | nil => simp [flushQueue]
  | cons p rest ih =>
    by_cases hk : ok i = true
    · rcases ih (i + 1) with ⟨ih1, ih2, ih3⟩
      simp only [flushQueue, if_pos hk, List.length_cons]
      refine ⟨by omega, by omega, ?_⟩
      rcases ih3 with h | h
      · exact Or.inl (by omega)
      · exact Or.inr (by omega)
    · have hk' : ok i = false := by
        cases h : ok i
        · rfl
        · exact absurd h hk
      simp [flushQueue, hk', hk]

/-- C7: each battery tick moves the level by exactly ±1 according to the
direction; crossing the low threshold while discharging flips to charging,
disables the listener and raises the charging flag; crossing full while
charging flips to running, re-enables the listener, clears the charging flag
and invokes the flush routine, which is run on exactly those ticks; on all
other ticks the mode and both flags are unchanged. -/
theorem battery_step_behavior (s : BatteryState) :
    ((batteryStep s).state.level = s.level + (if s.is_discharging = true then -1 else 1))
    ∧ ((batteryStep s).flushed = true ↔ (s.is_discharging = false ∧ 100 ≤ s.level + 1))
    ∧ (s.is_discharging = true → s.level - 1 ≤ 15 →
        (batteryStep s).state = ⟨s.level - 1, false, false, true⟩
        ∧ (batteryStep s).log = [LogEvent.batteryLow])
    ∧ (s.is_discharging = true → ¬ (s.level - 1 ≤ 15) →
        (batteryStep s).state = ⟨s.level - 1, true, s.listening, s.charging⟩
        ∧ (batteryStep s).flushed = false)
    ∧ (s.is_discharging = false → 100 ≤ s.level + 1 →
        (batteryStep s).state = ⟨s.level + 1, true, true, false⟩
        ∧ (batteryStep s).flushed = true
        ∧ (batteryStep s).log = [LogEvent.batteryFull])
    ∧ (s.is_discharging = false → ¬ (100 ≤ s.level + 1) →
        (batteryStep s).state = ⟨s.level + 1, false, s.listening, s.charging⟩
        ∧ (batteryStep s).flushed = false) := by
  cases hd : s.is_discharging with
  | true =>
    by_cases h15 : s.level - 1 ≤ 15
    · have : s.level + -1 ≤ 15 := by omega
      simp [batteryStep, hd, this, sub_eq_add_neg, h15]
    · have : ¬ (s.level + -1 ≤ 15) := by omega
      simp [batteryStep, hd, this, sub_eq_add_neg, h15]
  | false =>
    by_cases h100 : 100 ≤ s.level + 1
    · simp [batteryStep, hd, h100]
    · simp [batteryStep, hd, h100]

/-- Witness for C7: from level 16 while discharging, one tick crosses the
low threshold: level 15, listener disabled, charging flag set, no flush. -/
theorem battery_step_behavior_witness :
    (batteryStep ⟨16, true, true, false⟩).state = ⟨15, false, false, true⟩
    ∧ (batteryStep ⟨16, true, true, false⟩).log = [LogEvent.batteryLow] :=
  (battery_step_behavior ⟨16, true, true, false⟩).2.2.1 rfl (by decide)

/-! ### Listener line handling (drone.py lines 140–166)

A JSON value is abstracted to `JVal`: `num` stands for any value that
`float(...)` accepts, `str` for a JSON string, `other` for every remaining
value.  A received line either fails `json.loads` (`garbage`) or yields an
object with a field list (later duplicates of a key win, as in Python's
`json.loads`). -/

/-- Abstracted JSON value. -/
inductive JVal
  | num (q : ℚ)
  | str (s : String)
  | other (tag : ℕ)
deriving DecidableEq

/-- One newline-delimited line as received by the connection worker. -/
inductive Line
  | garbage (raw : String)
  | obj (fields : List (String × JVal))
deriving DecidableEq

/-- Field lookup in a decoded JSON object (`j["k"]`); with duplicate keys
the last occurrence wins, as in Python's `json.loads`. -/
def getField (fields : List (String × JVal)) (k : String) : Option JVal :=
  ((fields.filter fun p => p.1 == k).getLast?).map fun p => p.2

/-- Conversion `float(v)` in the abstraction: numeric values convert, others raise. -/
def toFloat : JVal → Option ℚ
  | JVal.num q => some q
  | _ => none

/-- A string-typed JSON value (the timestamp is used as a string by
`Stats.add`, so the model requires it to be one). -/
def asString : JVal → Option String
  | JVal.str s => some s
  | _ => none

/-- A successfully parsed reading, as bound by drone.py lines 153–156. -/
structure ParsedReading where
  sid : JVal
  t : ℚ
  h : ℚ
  ts : String
deriving DecidableEq

/-- The `try` block of the connection worker (drone.py lines 151–158):
decode the line, read `sensor_id`, convert `temperature` and `humidity`
with `float`, read `timestamp`; any failure makes the whole line parse to
`none` (the `except: continue`). -/
def parseLine : Line → Option ParsedReading
  | Line.garbage _ => none
  | Line.obj fs =>
    match getField fs ("sensor_id"), getField fs ("temperature"),
        getField fs ("humidity"), getField fs ("timestamp") with
    | some sid, some tv, some hv, some tsv =>
      match toFloat tv, toFloat hv, asString tsv with
      | some t, some h, some ts => some ⟨sid, t, h, ts⟩
      | _, _, _ => none
    | _, _, _, _ => none

/-- A required field of the frame is missing. -/
def RequiredMissing (fs : List (String × JVal)) : Prop :=
  getField fs ("sensor_id") = none ∨ getField fs ("temperature") = none ∨
  getField fs ("humidity") = none ∨ getField fs ("timestamp") = none

/-- The temperature or humidity field is present but not numeric. -/
def NonNumericField (fs : List (String × JVal)) : Prop :=
  (∃ v, getField fs ("temperature") = some v ∧ toFloat v = none) ∨
  (∃ v, getField fs ("humidity") = some v ∧ toFloat v = none)

/-- A malformed line in the sense of the specification: unparsable
structure, missing required field, or non-numeric temperature/humidity. -/
def Malformed : Line → Prop
  | Line.garbage _ => True
  | Line.obj fs => RequiredMissing fs ∨ NonNumericField fs

/-- The state the connection worker mutates: the shared per-sensor stats
map, the log queue, and the `send_avg` invocations made. -/
structure ListenerState where
  sensors : List (JVal × Stats)
  log : List (JVal × Bool × ℚ × ℚ)
  emitted : List (JVal × ℚ × ℚ × ℕ)
deriving DecidableEq

/-- Update `sensors.setdefault(sid, Stats())` followed by mutating the entry:
update the stats stored under the key, inserting it when absent. -/
def updateStats : List (JVal × Stats) → JVal → Stats → List (JVal × Stats)
  | [], k, v => [(k, v)]
  | (k', v') :: rest, k, v =>
    if k = k' then (k, v) :: rest else (k', v') :: updateStats rest k v

/-- Lookup in the sensors map. -/
def lookupStats : List (JVal × Stats) → JVal → Option Stats
  | [], _ => none
  | (k', v) :: rest, k => if k = k' then some v else lookupStats rest k

/-- Processing of one line in the worker loop (drone.py lines 149–164): a
line that fails to parse is skipped with no effect at all; a parsed reading
is added to the sensor's stats, one log line is put, and `send_avg` is
invoked when the window length is 10. -/
def handleLine (st : ListenerState) (ln : Line) : ListenerState :=
  match parseLine ln with
  | none => st
  | some r =>
    let s0 := (lookupStats st.sensors r.sid).getD Stats.init
    let res := s0.add r.t r.h r.ts
    { sensors := updateStats st.sensors r.sid res.1
      log := st.log ++ [(r.sid, res.2, r.t, r.h)]
      emitted :=
        if res.1.t.length = 10
        then st.emitted ++ [(r.sid, res.1.avg_t, res.1.avg_h, res.1.anom)]
        else st.emitted }

/-- Process a sequence of lines on one connection in order. -/
def handleLines (st : ListenerState) : List Line → ListenerState
  | [] => st
  | ln :: rest => handleLines (handleLine st ln) rest

theorem parseLine_malformed (ln : Line) (hm : Malformed ln) : parseLine ln = none := by
  cases ln with
  | garbage raw => rfl
  | obj fs =>
    unfold parseLine
    rcases hsid : getField fs ("sensor_id") with _ | v1 <;>
    rcases htv : getField fs ("temperature") with _ | v2 <;>
    rcases hhv : getField fs ("humidity") with _ | v3 <;>
    rcases htsv : getField fs ("timestamp") with _ | v4 <;>
    simp_all [Malformed, RequiredMissing, NonNumericField] <;>
    rcases hf2 : toFloat v2 with _ | t2 <;>
    rcases hf3 : toFloat v3 with _ | t3 <;>
    rcases hs4 : asString v4 with _ | s4 <;>
    simp_all

/-- C8 (counterexample): an unparsable line is dropped with NO log event —
the worker state, including the log queue, is completely unchanged — while
the claim says a log event is produced for the dropped line.  In the code
the `except` branch is a bare `continue` with no `log_queue.put`. -/
theorem malformed_line_logged_cex :
    (handleLine ⟨[], [], []⟩ (Line.garbage ("not json"))).log = []
    ∧ handleLine ⟨[], [], []⟩ (Line.garbage ("not json")) = ⟨[], [], []⟩ :=
  ⟨rfl, rfl⟩

/-- C8 (amended): every malformed incoming line (unparsable structure,
missing required field, or non-numeric temperature/humidity) is dropped
silently — with no log event — leaving every sensor's stats and the whole
worker state unchanged, and processing of the subsequent lines of the same
connection continues exactly as if the malformed line had not been
received. -/
theorem malformed_line_dropped (st : ListenerState) (ln : Line) (rest : List Line)
    (hm : Malformed ln) :
    handleLine st ln = st
    ∧ (handleLine st ln).sensors = st.sensors
    ∧ (handleLine st ln).log = st.log
    ∧ handleLines st (ln :: rest) = handleLines st rest := by
  have h : handleLine st ln = st := by
    unfold handleLine
    rw [parseLine_malformed ln hm]
  exact ⟨h, by rw [h], by rw [h], by simp only [handleLines, h]⟩

/-- Witness for C8 (amended) at a line missing the humidity field. -/
theorem malformed_line_dropped_witness :
    Malformed (Line.obj [(("sensor_id"), JVal.str ("s1")),
        (("temperature"), JVal.num 20), (("timestamp"), JVal.str ("t"))])
    ∧ handleLine ⟨[], [], []⟩ (Line.obj [(("sensor_id"), JVal.str ("s1")),
        (("temperature"), JVal.num 20), (("timestamp"), JVal.str ("t"))]) = ⟨[], [], []⟩ := by
  have hm : Malformed (Line.obj [(("sensor_id"), JVal.str ("s1")),
      (("temperature"), JVal.num 20), (("timestamp"), JVal.str ("t"))]) := by
    refine Or.inl (Or.inr (Or.inr (Or.inl ?_)))
    rfl
  exact ⟨hm, (malformed_line_dropped ⟨[], [], []⟩ _ [] hm).1⟩

end DroneGateway
